import Mathlib

/-! lambroll: archive construction and status formatting

A shallow embedding of `archive.go` (`loadZipArchive`, `createZipArchive`,
`matchExcludes`, `addToZip`) and of `status.go` (`FunctionStatusOutput.String`).

Modelling conventions.

* A Go `error` is a value of `GoError`; a nil error or nil pointer is `none`.
* Library functions the code calls (`wildcard.Match`, `filepath.Clean`,
  `zip.FileInfoHeader`, the tail of `filepath.Rel`) are fields of `Lib`; the
  theorems hold for every `Lib`.
* Results of system calls (`os.CreateTemp`, `zip.Writer.CreateHeader`, `os.Open`,
  `io.Copy`, `zip.Writer.Close`, `zip.OpenReader`, `os.Stat`) are read from an
  explicit environment (`FileCalls`, `Visit`, `World`, `LoadWorld`).
* `filepath.Walk` is the sequence of callback invocations it makes while the
  callback keeps returning nil; it stops at the first non-nil result and returns
  it. The sentinels `filepath.SkipDir` and `filepath.SkipAll` are never produced by
  `os` or `archive/zip`, so the callback of `createZipArchive` never returns them.
* Logging calls have no effect on any result and are left out.
-/

namespace Lambroll

/-! ## Errors -/

/-- A Go error value: a plain error, or one built by `fmt.Errorf` with `%w`. -/
inductive GoError where
  | errorString (msg : String)
  | wrapError (msg : String) (err : GoError)
  deriving DecidableEq, Repr

/-- The method `Error()`. -/
def GoError.Error : GoError → String
  | .errorString msg => msg
  | .wrapError msg _ => msg

/-- The method `Unwrap()`: the error wrapped with `%w`, if any. -/
def GoError.Unwrap : GoError → Option GoError
  | .errorString _ => none
  | .wrapError _ err => some err

/-- The call `fmt.Errorf(format, args..., err)` where `format` ends in `%w`:
`text` is the formatted text in front of the `%w` verb. -/
def Errorf (text : String) (err : GoError) : GoError :=
  .wrapError (text ++ err.Error) err

/-! ## Data model -/

/-- The part of `os.FileInfo` the code reads. -/
structure FileInfo where
  Name : String
  Size : Int
  Mode : Nat
  ModTime : Int
  IsDir : Bool
  deriving DecidableEq, Repr

/-- The part of `zip.FileHeader` the code reads or writes. -/
structure FileHeader where
  Name : String
  Method : Nat
  Mode : Nat
  Modified : Int
  UncompressedSize64 : Nat
  deriving DecidableEq, Repr

/-- The constant `zip.Store`. -/
def Store : Nat := 0

/-- The constant `zip.Deflate`. -/
def Deflate : Nat := 8

/-- Library functions called by the code. -/
structure Lib where
  /-- The function `wildcard.Match(pattern, name)`. -/
  Match : String → String → Bool
  /-- The function `filepath.Clean`. -/
  Clean : String → String
  /-- The comparison `sameWord` of `filepath.Rel` (string equality, or equality up
  to case on Windows). -/
  sameWord : String → String → Bool
  /-- Both variants of `sameWord` are reflexive. -/
  sameWord_refl : ∀ s, sameWord s s = true
  /-- What `filepath.Rel` computes from the cleaned base and target when they are
  not the same word. -/
  relRest : String → String → String × Option GoError
  /-- The function `zip.FileInfoHeader`. -/
  FileInfoHeader : FileInfo → FileHeader × Option GoError

/-- The function `filepath.Rel(basepath, targpath)`: its first return, then the
remainder of the library function. -/
def Rel (lib : Lib) (basepath targpath : String) : String × Option GoError :=
  let base := lib.Clean basepath
  let targ := lib.Clean targpath
  if lib.sameWord targ base then (".", none) else lib.relRest base targ

/-- Results of the system calls `addToZip` makes for one file. -/
structure FileCalls where
  /-- Error result of `z.CreateHeader(header)`. -/
  createErr : Option GoError
  /-- Error result of `os.Open(path)`. -/
  openErr : Option GoError
  /-- Bytes `io.Copy` wrote into the entry. -/
  data : List Nat
  /-- Error result of `io.Copy(w, r)`. -/
  copyErr : Option GoError
  deriving DecidableEq, Repr

/-- One invocation of the callback by `filepath.Walk`: the arguments `path`,
`info` and `err`, and the results of the system calls made for that path. When `err`
is non-nil the callback does not look at `info`. -/
structure Visit where
  path : String
  info : FileInfo
  err : Option GoError
  calls : FileCalls
  deriving DecidableEq, Repr

/-- An entry of the archive: the header given to `CreateHeader` and the bytes
streamed into it. -/
structure ZipEntry where
  header : FileHeader
  data : List Nat
  deriving DecidableEq, Repr

/-- The state of a `zip.Writer`: the entries created so far. -/
structure ZipWriter where
  dir : List ZipEntry
  deriving DecidableEq, Repr

/-- The temporary file behind the returned `*os.File`: the entries it holds and
the read offset. -/
structure TmpFile where
  entries : List ZipEntry
  offset : Nat
  deriving DecidableEq, Repr

/-- The environment of one call of `createZipArchive`. -/
structure World where
  /-- Error result of `os.CreateTemp`. -/
  createTempErr : Option GoError
  /-- The callback invocations `filepath.Walk(src, ...)` makes. -/
  visits : List Visit
  /-- Error result of `w.Close()`. -/
  closeErr : Option GoError
  /-- Result of `tmpfile.Stat()`. -/
  tmpStat : FileInfo

/-- What a call of `createZipArchive` leaves behind: the entries written through
the zip writer, and the three returned values. -/
structure Outcome where
  written : List ZipEntry
  file : Option TmpFile
  info : Option FileInfo
  err : Option GoError
  deriving DecidableEq, Repr

/-! ## archive.go -/

/-- The function `matchExcludes`. -/
def matchExcludes (lib : Lib) (path : String) : List String → Bool
  | [] => false
  | pattern :: rest =>
    if lib.Match pattern path then true else matchExcludes lib path rest

/-- The function `addToZip`. -/
def addToZip (lib : Lib) (z : ZipWriter) (_path relpath : String) (info : FileInfo)
    (calls : FileCalls) : ZipWriter × Option GoError :=
  match lib.FileInfoHeader info with
  | (_, some err) => (z, some err)
  | (header, none) =>
    let header := { header with Name := relpath }
    let header := { header with Method := Deflate }
    match calls.createErr with
    | some err => (z, some err)
    | none =>
      match calls.openErr with
      | some err => (⟨z.dir ++ [⟨header, []⟩]⟩, some err)
      | none => (⟨z.dir ++ [⟨header, calls.data⟩]⟩, calls.copyErr)

/-- The callback `createZipArchive` gives to `filepath.Walk`. -/
def walkFn (lib : Lib) (src : String) (excludes : List String) (z : ZipWriter)
    (v : Visit) : ZipWriter × Option GoError :=
  match v.err with
  | some err => (z, some err)
  | none =>
    if v.info.IsDir then (z, none)
    else
      let relpath := (Rel lib src v.path).1
      if matchExcludes lib relpath excludes then (z, none)
      else addToZip lib z v.path relpath v.info v.calls

/-- The function `filepath.Walk`, over the callback invocations it would make. -/
def Walk (fn : ZipWriter → Visit → ZipWriter × Option GoError) (z : ZipWriter) :
    List Visit → ZipWriter × Option GoError
  | [] => (z, none)
  | v :: rest =>
    match fn z v with
    | (z1, some err) => (z1, some err)
    | (z1, none) => Walk fn z1 rest

/-- The function `createZipArchive`. -/
def createZipArchive (lib : Lib) (w : World) (src : String) (excludes : List String) :
    Outcome :=
  match w.createTempErr with
  | some err => ⟨[], none, none, some (Errorf "failed to open tempFile: " err)⟩
  | none =>
    let r := Walk (walkFn lib src excludes) ⟨[]⟩ w.visits
    match w.closeErr with
    | some err => ⟨r.1.dir, none, none, some (Errorf "failed to create zip archive: " err)⟩
    | none => ⟨r.1.dir, some ⟨r.1.dir, 0⟩, some w.tmpStat, r.2⟩

/-- The environment of one call of `loadZipArchive`. -/
structure LoadWorld where
  /-- Result of `zip.OpenReader(src)`: the headers of the entries, or an error. -/
  openReader : String → Except GoError (List FileHeader)
  /-- Result of `os.Stat(src)`. -/
  stat : String → Except GoError FileInfo
  /-- Result of `os.Open(src)`: handle and error. -/
  osOpen : String → Option TmpFile × Option GoError

/-- The function `loadZipArchive`. -/
def loadZipArchive (w : LoadWorld) (src : String) :
    Option TmpFile × Option FileInfo × Option GoError :=
  match w.openReader src with
  | .error err => (none, none, some (Errorf ("failed to open zip file " ++ src ++ ": ") err))
  | .ok _ =>
    match w.stat src with
    | .error err => (none, none, some (Errorf ("failed to stat " ++ src ++ ": ") err))
    | .ok info =>
      let r := w.osOpen src
      (r.1, some info, r.2)

/-! ## status.go -/

/-- The part of `types.LoggingConfig` the code reads. The three enumerations are Go
string types. -/
structure LoggingConfig where
  LogFormat : String
  LogGroup : Option String
  ApplicationLogLevel : String
  SystemLogLevel : String
  deriving DecidableEq, Repr

/-- The part of `types.SnapStartResponse` the code reads. -/
structure SnapStartResponse where
  ApplyOn : String
  OptimizationStatus : String
  deriving DecidableEq, Repr

/-- The part of `types.FunctionConfiguration` the code reads; a Go pointer is an
`Option`. -/
structure FunctionConfiguration where
  FunctionName : Option String
  Description : Option String
  Version : Option String
  FunctionArn : Option String
  Role : Option String
  State : String
  LastUpdateStatus : String
  LoggingConfig : Option LoggingConfig
  SnapStart : Option SnapStartResponse
  Architectures : List String
  Runtime : String
  Handler : Option String
  Timeout : Option Int
  MemorySize : Option Int
  PackageType : String
  CodeSize : Int
  CodeSha256 : Option String
  deriving DecidableEq, Repr

/-- The type `FunctionStatusOutput`. `Tags` is the map as the list of pairs in the
order `range` yields them; `Code` is not read by `String`. -/
structure FunctionStatusOutput where
  Configuration : Option FunctionConfiguration
  Tags : List (String × String)
  deriving DecidableEq, Repr

/-- The function `aws.ToString`: the empty string for a nil pointer. -/
def ToString : Option String → String
  | none => ""
  | some s => s

/-- The function `aws.ToInt32`: zero for a nil pointer. -/
def ToInt32 : Option Int → Int
  | none => 0
  | some n => n

/-- The function `strings.Join`. -/
def Join : List String → String → String
  | [], _ => ""
  | [a], _ => a
  | a :: b :: rest, sep => a ++ sep ++ Join (b :: rest) sep

/-- The Go type `string`. -/
abbrev GoString : Type := String

/-- The method `FunctionStatusOutput.String`; `none` is the nil-pointer panic. -/
def FunctionStatusOutput.String (st : FunctionStatusOutput) : Option GoString :=
  let tags := st.Tags.map (fun kv => kv.1 ++ "=" ++ kv.2)
  match st.Configuration with
  | none => none
  | some c =>
    let archs := c.Architectures
    match c.LoggingConfig with
    | none => none
    | some lc =>
      let loggingConfig := [
        "  LogFormat: " ++ lc.LogFormat,
        "  LogGroup: " ++ ToString lc.LogGroup]
      let loggingConfig :=
        if lc.ApplicationLogLevel ≠ "" then
          loggingConfig ++ ["  ApplicationLogLevel: " ++ lc.ApplicationLogLevel]
        else loggingConfig
      let loggingConfig :=
        if lc.SystemLogLevel ≠ "" then
          loggingConfig ++ ["  SystemLogLevel: " ++ lc.SystemLogLevel]
        else loggingConfig
      let snapStart :=
        match c.SnapStart with
        | some ss => Join [
            "  ApplyOn: " ++ ss.ApplyOn,
            "  OptimizationStatus: " ++ ss.OptimizationStatus] "\n"
        | none => ""
      some (Join [
        "FunctionName: " ++ ToString c.FunctionName,
        "Description: " ++ ToString c.Description,
        "Version: " ++ ToString c.Version,
        "FunctionArn: " ++ ToString c.FunctionArn,
        "Role: " ++ ToString c.Role,
        "State: " ++ c.State,
        "LastUpdateStatus: " ++ c.LastUpdateStatus,
        "LoggingConfig: \n" ++ Join loggingConfig "\n",
        "SnapStart: \n" ++ snapStart,
        "Architectures: " ++ Join archs ",",
        "Runtime: " ++ c.Runtime,
        "Handler: " ++ ToString c.Handler,
        "Timeout: " ++ toString (ToInt32 c.Timeout),
        "MemorySize: " ++ toString (ToInt32 c.MemorySize),
        "PackageType: " ++ c.PackageType,
        "CodeSize: " ++ toString c.CodeSize,
        "CodeSha256: " ++ ToString c.CodeSha256,
        "Tags: " ++ Join tags ","] "\n" ++ "\n")

/-! ## Vocabulary of the statements -/

/-- The relative path `createZipArchive` computes for a visited path:
`relpath, _ := filepath.Rel(src, path)`. -/
def relOf (lib : Lib) (src : String) (v : Visit) : String :=
  (Rel lib src v.path).1

/-- A visit is included when it is not a directory and its relative path matches no
exclude pattern. -/
def included (lib : Lib) (src : String) (excludes : List String) (v : Visit) : Bool :=
  !v.info.IsDir && !matchExcludes lib (relOf lib src v) excludes

/-- Every step of `addToZip` succeeds for the visit: header creation, entry
creation, open and copy. -/
def addSucceeds (lib : Lib) (v : Visit) : Prop :=
  (lib.FileInfoHeader v.info).2 = none ∧ v.calls.createErr = none ∧
    v.calls.openErr = none ∧ v.calls.copyErr = none

/-- The names of a list of archive entries. -/
def entryNames (es : List ZipEntry) : List String :=
  es.map (fun e => e.header.Name)

/-- The visit fails with error `e`: the walk reports `e` for it, or it is a file
that is not excluded and the first failing step of `addToZip` (header creation,
entry creation, open, copy) reports `e`. -/
def FailsWith (lib : Lib) (src : String) (excludes : List String) (v : Visit)
    (e : GoError) : Prop :=
  v.err = some e ∨
  (v.err = none ∧ v.info.IsDir = false ∧
    matchExcludes lib (relOf lib src v) excludes = false ∧
    ((lib.FileInfoHeader v.info).2 = some e ∨
     ((lib.FileInfoHeader v.info).2 = none ∧ v.calls.createErr = some e) ∨
     ((lib.FileInfoHeader v.info).2 = none ∧ v.calls.createErr = none ∧
        v.calls.openErr = some e) ∨
     ((lib.FileInfoHeader v.info).2 = none ∧ v.calls.createErr = none ∧
        v.calls.openErr = none ∧ v.calls.copyErr = some e)))

/-- Each line followed by a newline. -/
def unlines : List String → String
  | [] => ""
  | l :: rest => l ++ "\n" ++ unlines rest

/-! ## Concrete inputs -/

/-- Modelled from the spec: `wildcard.Match`, whose package is not among the source
files. Section 4.1: `*` matches any run of characters, including none, also across
`/`; section 3 names `?` as a wildcard too (one character); any other character
matches itself. -/
def globMatch : List Char → List Char → Bool
  | [], cs => cs.isEmpty
  | p :: ps, cs =>
    if p = '*' then cs.tails.any (globMatch ps)
    else
      match cs with
      | [] => false
      | c :: rest => (p = '?' || p = c) && globMatch ps rest

/-- The header `zip.FileInfoHeader` builds from a `FileInfo`: its base name, size,
mode and modification time, method `Store`, and a nil error. -/
def stdFileInfoHeader (fi : FileInfo) : FileHeader × Option GoError :=
  (⟨fi.Name, Store, fi.Mode, fi.ModTime, (fi.Size % 2 ^ 64).toNat⟩, none)

/-- A `Lib` for evaluating the code on concrete inputs whose paths are clean and
whose targets lie below the base: `Clean` leaves such a path as it is and the tail
of `Rel` drops the base and one separator. -/
def posixLib : Lib where
  Match := fun pattern name => globMatch pattern.data name.data
  Clean := id
  sameWord := fun a b => a == b
  sameWord_refl := by simp
  relRest := fun base targ => (String.mk (targ.data.drop (base.length + 1)), none)
  FileInfoHeader := stdFileInfoHeader

/-- The same on Windows: `sameWord` compares up to case. -/
def windowsLib : Lib where
  Match := fun pattern name => globMatch pattern.data name.data
  Clean := id
  sameWord := fun a b => a.data.map Char.toLower == b.data.map Char.toLower
  sameWord_refl := by simp
  relRest := fun base targ => (String.mk (targ.data.drop (base.length + 1)), none)
  FileInfoHeader := stdFileInfoHeader

/-- A regular file of mode 0644. -/
def regularInfo (name : String) (size : Int) : FileInfo :=
  ⟨name, size, 420, 1700000000, false⟩

/-- A directory of mode `ModeDir | 0755`. -/
def dirInfo (name : String) : FileInfo :=
  ⟨name, 4096, 2147484141, 1700000000, true⟩

/-- System calls that all succeed, delivering `data`. -/
def okCalls (data : List Nat) : FileCalls :=
  ⟨none, none, data, none⟩

/-- The visit of a directory that is read without error. -/
def dirVisit (path name : String) : Visit :=
  ⟨path, dirInfo name, none, okCalls []⟩

/-- The visit of a regular file whose system calls succeed. -/
def fileVisit (path name : String) (data : List Nat) : Visit :=
  ⟨path, regularInfo name data.length, none, okCalls data⟩

/-- The result of `tmpfile.Stat()` in the concrete inputs. -/
def tmpInfo : FileInfo :=
  ⟨"archive123", 512, 384, 1700000100, false⟩

/-- The tree `src/a.txt`, `src/sub/b.txt`, `src/sub/c.log`. -/
def treeWorld : World where
  createTempErr := none
  visits := [
    dirVisit "src" "src",
    fileVisit "src/a.txt" "a.txt" [97],
    dirVisit "src/sub" "sub",
    fileVisit "src/sub/b.txt" "b.txt" [98, 98],
    fileVisit "src/sub/c.log" "c.log" []]
  closeErr := none
  tmpStat := tmpInfo

/-- The error of `os.Lstat` on a path that does not exist. -/
def lstatErr : GoError :=
  .errorString "lstat missing: no such file or directory"

/-- The source path does not exist: `Walk` calls the callback once, with the
error of `Lstat`; closing the zip writer succeeds. -/
def missingWorld : World where
  createTempErr := none
  visits := [⟨"missing", dirInfo "", some lstatErr, okCalls []⟩]
  closeErr := none
  tmpStat := tmpInfo

/-- A read error of `io.Copy`. -/
def readErr : GoError :=
  .errorString "read src/a.txt: input/output error"

/-- A write error of `w.Close()`. -/
def writeErr : GoError :=
  .errorString "write /tmp/archive123: no space left on device"

/-- The file whose copy fails with `readErr`. -/
def unreadableVisit : Visit :=
  ⟨"src/a.txt", regularInfo "a.txt" 1, none, ⟨none, none, [], some readErr⟩⟩

/-- Copying `src/a.txt` fails and closing the zip writer fails as well. -/
def brokenWorld : World where
  createTempErr := none
  visits := [dirVisit "src" "src", unreadableVisit, fileVisit "src/b.txt" "b.txt" [98]]
  closeErr := some writeErr
  tmpStat := tmpInfo

/-- The tree `C:\app\sub\b.txt` as `filepath.Walk` reports it on Windows. -/
def windowsWorld : World where
  createTempErr := none
  visits := [
    dirVisit "C:\\app" "app",
    dirVisit "C:\\app\\sub" "sub",
    fileVisit "C:\\app\\sub\\b.txt" "b.txt" [98]]
  closeErr := none
  tmpStat := tmpInfo

/-- The source path is the regular file `app.bin`. -/
def singleFileWorld : World where
  createTempErr := none
  visits := [fileVisit "app.bin" "app.bin" [1, 2, 3]]
  closeErr := none
  tmpStat := tmpInfo

/-- The error of `zip.OpenReader` on a file that is not a zip archive. -/
def notZipErr : GoError :=
  .errorString "zip: not a valid zip file"

/-- The file `function.zip` exists and can be opened, but is not a zip archive. -/
def corruptWorld : LoadWorld where
  openReader := fun _ => .error notZipErr
  stat := fun _ => .ok (regularInfo "function.zip" 10)
  osOpen := fun _ => (some ⟨[], 0⟩, none)

/-- A status with both log levels set and no SnapStart. -/
def sampleStatus : FunctionStatusOutput where
  Configuration := some {
    FunctionName := some "hello"
    Description := none
    Version := some "$LATEST"
    FunctionArn := some "arn:aws:lambda:us-east-1:123456789012:function:hello"
    Role := some "arn:aws:iam::123456789012:role/hello"
    State := "Active"
    LastUpdateStatus := "Successful"
    LoggingConfig := some ⟨"JSON", some "/aws/lambda/hello", "INFO", "WARN"⟩
    SnapStart := none
    Architectures := ["arm64"]
    Runtime := "provided.al2023"
    Handler := some "bootstrap"
    Timeout := some 3
    MemorySize := some 128
    PackageType := "Zip"
    CodeSize := 1024
    CodeSha256 := some "abc="
  }
  Tags := [("env", "dev")]

/-! ## Properties of `matchExcludes` and of the walk -/

theorem matchExcludes_eq_true_iff (lib : Lib) (path : String) (excludes : List String) :
    matchExcludes lib path excludes = true ↔
      ∃ pattern ∈ excludes, lib.Match pattern path = true := by
  induction excludes with
  | nil => simp [matchExcludes]
  | cons p rest ih =>
    unfold matchExcludes
    by_cases hp : lib.Match p path = true
    · simp [hp]
    · simp [hp, ih]

theorem matchExcludes_perm (lib : Lib) (path : String) (xs ys : List String)
    (h : xs.Perm ys) : matchExcludes lib path ys = matchExcludes lib path xs := by
  have key : matchExcludes lib path ys = true ↔ matchExcludes lib path xs = true := by
    rw [matchExcludes_eq_true_iff, matchExcludes_eq_true_iff]
    constructor
    · rintro ⟨p, hp, hm⟩
      exact ⟨p, h.mem_iff.mpr hp, hm⟩
    · rintro ⟨p, hp, hm⟩
      exact ⟨p, h.mem_iff.mp hp, hm⟩
  cases hy : matchExcludes lib path ys <;> cases hx : matchExcludes lib path xs <;> simp_all

/-- C2: `matchExcludes(path, excludes)` is true exactly when `wildcard.Match(pattern, path)`
is true for at least one pattern of `excludes`; it is false for the empty list; and
reordering the patterns does not change the result. -/
theorem matchExcludes_any (lib : Lib) (path : String) (excludes : List String) :
    (matchExcludes lib path excludes = true ↔
      ∃ pattern ∈ excludes, lib.Match pattern path = true) ∧
    matchExcludes lib path [] = false ∧
    (∀ reordered : List String, excludes.Perm reordered →
      matchExcludes lib path reordered = matchExcludes lib path excludes) :=
  ⟨matchExcludes_eq_true_iff lib path excludes, rfl,
    fun reordered h => matchExcludes_perm lib path excludes reordered h⟩

/-- The entry `addToZip` writes for a visit when every step succeeds. -/
theorem addToZip_of_succeeds (lib : Lib) (z : ZipWriter) (relpath : String) (v : Visit)
    (h : addSucceeds lib v) :
    addToZip lib z v.path relpath v.info v.calls =
      (⟨z.dir ++ [⟨{ (lib.FileInfoHeader v.info).1 with Name := relpath, Method := Deflate },
        v.calls.data⟩]⟩, none) := by
  obtain ⟨h1, h2, h3, h4⟩ := h
  unfold addToZip
  rcases hh : lib.FileInfoHeader v.info with ⟨hd, e⟩
  rw [hh] at h1
  simp only at h1
  subst h1
  simp [h2, h3, h4]

theorem walk_of_succeeds (lib : Lib) (src : String) (excludes : List String) :
    ∀ (vs : List Visit) (z : ZipWriter),
      (∀ v ∈ vs, v.err = none ∧ (included lib src excludes v = true → addSucceeds lib v)) →
      Walk (walkFn lib src excludes) z vs =
        (⟨z.dir ++ (vs.filter (included lib src excludes)).map (fun v =>
          ⟨{ (lib.FileInfoHeader v.info).1 with Name := relOf lib src v, Method := Deflate },
            v.calls.data⟩)⟩, none) := by
  intro vs
  induction vs with
  | nil => intro z _; simp [Walk]
  | cons v rest ih =>
    intro z h
    have hv := h v (List.mem_cons_self v rest)
    have hrest : ∀ u ∈ rest, u.err = none ∧
        (included lib src excludes u = true → addSucceeds lib u) :=
      fun u hu => h u (List.mem_cons_of_mem v hu)
    unfold Walk
    by_cases hinc : included lib src excludes v = true
    · have hadd := addToZip_of_succeeds lib z (relOf lib src v) v (hv.2 hinc)
      have hfn : walkFn lib src excludes z v =
          (⟨z.dir ++ [⟨{ (lib.FileInfoHeader v.info).1 with
            Name := relOf lib src v, Method := Deflate }, v.calls.data⟩]⟩, none) := by
        unfold included at hinc
        simp only [Bool.and_eq_true, Bool.not_eq_true'] at hinc
        unfold walkFn
        rw [hv.1]
        simp only [relOf] at hinc hadd
        simp [hinc.1, hinc.2, hadd, relOf]
      rw [hfn]
      simp only
      rw [ih _ hrest]
      simp [List.filter_cons, hinc]
    · have hfn : walkFn lib src excludes z v = (z, none) := by
        unfold included at hinc
        unfold walkFn
        rw [hv.1]
        simp only [relOf] at hinc
        by_cases hd : v.info.IsDir = true
        · simp [hd]
        · simp only [hd]
          simp only [Bool.not_eq_true] at hd
          simp [hd] at hinc
          simp [hinc]
      rw [hfn]
      simp only
      rw [ih _ hrest]
      simp [List.filter_cons, hinc]

/-- C1: when the temporary file is created, every visit of the walk is free of
error and its relative path is unique, the entry names of the archive written by
`createZipArchive` are exactly the relative paths of the non-directory visits that
match no exclude pattern, in walk order; each such path appears exactly once, and the
relative path of a directory or of an excluded path is not an entry name. -/
theorem createZipArchive_entry_names (lib : Lib) (w : World) (src : String)
    (excludes : List String)
    (htmp : w.createTempErr = none)
    (hok : ∀ v ∈ w.visits, v.err = none ∧
      (v.info.IsDir = false → matchExcludes lib (relOf lib src v) excludes = false →
        addSucceeds lib v))
    (huniq : (w.visits.map (relOf lib src)).Nodup) :
    entryNames (createZipArchive lib w src excludes).written =
        (w.visits.filter (fun v => !v.info.IsDir &&
          !matchExcludes lib (relOf lib src v) excludes)).map (relOf lib src) ∧
    (∀ v ∈ w.visits, v.info.IsDir = false →
        matchExcludes lib (relOf lib src v) excludes = false →
        (entryNames (createZipArchive lib w src excludes).written).count
          (relOf lib src v) = 1) ∧
    (∀ v ∈ w.visits,
        (v.info.IsDir = true ∨ matchExcludes lib (relOf lib src v) excludes = true) →
        relOf lib src v ∉ entryNames (createZipArchive lib w src excludes).written) ∧
    (∀ name ∈ entryNames (createZipArchive lib w src excludes).written,
        ∃ v ∈ w.visits, v.info.IsDir = false ∧
          matchExcludes lib (relOf lib src v) excludes = false ∧ relOf lib src v = name) := by
  have hok2 : ∀ v ∈ w.visits, v.err = none ∧
      (included lib src excludes v = true → addSucceeds lib v) := by
    intro v hv
    refine ⟨(hok v hv).1, fun hinc => ?_⟩
    unfold included at hinc
    simp only [Bool.and_eq_true, Bool.not_eq_true'] at hinc
    exact (hok v hv).2 hinc.1 hinc.2
  have hwalk := walk_of_succeeds lib src excludes w.visits ⟨[]⟩ hok2
  have hnames : entryNames (createZipArchive lib w src excludes).written =
      (w.visits.filter (included lib src excludes)).map (relOf lib src) := by
    unfold createZipArchive
    rw [htmp]
    simp only [hwalk]
    cases w.closeErr <;> simp [entryNames, List.map_map, Function.comp_def]
  have hfun : (fun v : Visit => !v.info.IsDir &&
      !matchExcludes lib (relOf lib src v) excludes) = included lib src excludes := by
    funext v
    rfl
  rw [hfun, hnames]
  have hnodup : ((w.visits.filter (included lib src excludes)).map (relOf lib src)).Nodup :=
    huniq.sublist (List.Sublist.map _ (List.filter_sublist _))
  have hinj := List.inj_on_of_nodup_map huniq
  refine ⟨rfl, ?_, ?_, ?_⟩
  · intro v hv hd hm
    apply List.count_eq_one_of_mem hnodup
    apply List.mem_map_of_mem
    rw [List.mem_filter]
    exact ⟨hv, by simp [included, hd, hm]⟩
  · intro v hv hbad hmem
    rw [List.mem_map] at hmem
    obtain ⟨u, hu, hrel⟩ := hmem
    rw [List.mem_filter] at hu
    have huv : u = v := hinj hu.1 hv hrel
    subst huv
    have hinc := hu.2
    unfold included at hinc
    simp only [Bool.and_eq_true, Bool.not_eq_true'] at hinc
    rcases hbad with hb | hb
    · rw [hinc.1] at hb
      exact Bool.noConfusion hb
    · rw [hinc.2] at hb
      exact Bool.noConfusion hb
  · intro name hmem
    rw [List.mem_map] at hmem
    obtain ⟨u, hu, hrel⟩ := hmem
    rw [List.mem_filter] at hu
    have hinc := hu.2
    unfold included at hinc
    simp only [Bool.and_eq_true, Bool.not_eq_true'] at hinc
    exact ⟨u, hu.1, hinc.1, hinc.2, hrel⟩

/-- What `addToZip` does to the writer: nothing, or one entry whose header is the
one of `zip.FileInfoHeader` with the name and the method replaced. -/
theorem addToZip_dir (lib : Lib) (z : ZipWriter) (path relpath : String) (info : FileInfo)
    (calls : FileCalls) :
    (addToZip lib z path relpath info calls).1.dir = z.dir ∨
    ((lib.FileInfoHeader info).2 = none ∧ calls.createErr = none ∧
      ∃ data, (addToZip lib z path relpath info calls).1.dir = z.dir ++
        [⟨{ (lib.FileInfoHeader info).1 with Name := relpath, Method := Deflate }, data⟩]) := by
  unfold addToZip
  rcases hh : lib.FileInfoHeader info with ⟨hd, e⟩
  cases e with
  | some e => left; rfl
  | none =>
    cases hc : calls.createErr with
    | some e => left; rfl
    | none =>
      right
      cases ho : calls.openErr with
      | some e => exact ⟨rfl, rfl, [], rfl⟩
      | none => exact ⟨rfl, rfl, calls.data, rfl⟩

/-- What the callback does to the writer: nothing, or one entry for an included
visit, named by its relative path. -/
theorem walkFn_dir (lib : Lib) (src : String) (excludes : List String) (z : ZipWriter)
    (v : Visit) :
    (walkFn lib src excludes z v).1.dir = z.dir ∨
    (v.err = none ∧ included lib src excludes v = true ∧
      (lib.FileInfoHeader v.info).2 = none ∧ v.calls.createErr = none ∧
      ∃ data, (walkFn lib src excludes z v).1.dir = z.dir ++
        [⟨{ (lib.FileInfoHeader v.info).1 with
          Name := relOf lib src v, Method := Deflate }, data⟩]) := by
  unfold walkFn
  cases he : v.err with
  | some e => left; rfl
  | none =>
    by_cases hd : v.info.IsDir = true
    · left; simp [hd]
    · by_cases hm : matchExcludes lib (Rel lib src v.path).1 excludes = true
      · left; simp [hd, hm]
      · simp only [hd, hm, Bool.false_eq_true, if_false]
        rcases addToZip_dir lib z v.path (Rel lib src v.path).1 v.info v.calls with h | h
        · left; exact h
        · right
          refine ⟨trivial, ?_, h.1, h.2.1, h.2.2⟩
          simp only [Bool.not_eq_true] at hd hm
          simp [included, relOf, hd, hm]

/-- The error the callback returns, and the entries it adds, do not depend on the
entries already written. -/
theorem walkFn_append (lib : Lib) (src : String) (excludes : List String) (z : ZipWriter)
    (v : Visit) :
    walkFn lib src excludes z v =
      (⟨z.dir ++ (walkFn lib src excludes ⟨[]⟩ v).1.dir⟩,
        (walkFn lib src excludes ⟨[]⟩ v).2) := by
  unfold walkFn
  cases v.err with
  | some e => simp
  | none =>
    by_cases hd : v.info.IsDir = true
    · simp [hd]
    · by_cases hm : matchExcludes lib (Rel lib src v.path).1 excludes = true
      · simp [hd, hm]
      · simp only [hd, hm, Bool.false_eq_true, if_false]
        unfold addToZip
        rcases lib.FileInfoHeader v.info with ⟨hdr, e⟩
        cases e with
        | some e => simp
        | none =>
          cases v.calls.createErr with
          | some e => simp
          | none =>
            cases v.calls.openErr with
            | some e => simp
            | none => simp

theorem Walk_append (fn : ZipWriter → Visit → ZipWriter × Option GoError) :
    ∀ (xs ys : List Visit) (z : ZipWriter),
      Walk fn z (xs ++ ys) =
        match Walk fn z xs with
        | (z1, some err) => (z1, some err)
        | (z1, none) => Walk fn z1 ys := by
  intro xs
  induction xs with
  | nil => intro ys z; simp [Walk]
  | cons x rest ih =>
    intro ys z
    simp only [List.cons_append, Walk]
    rcases hfn : fn z x with ⟨z1, e⟩
    cases e with
    | some e => rfl
    | none => exact ih ys z1

theorem Walk_congr (f g : ZipWriter → Visit → ZipWriter × Option GoError) :
    ∀ (vs : List Visit) (z : ZipWriter), (∀ v ∈ vs, ∀ z1, f z1 v = g z1 v) →
      Walk f z vs = Walk g z vs := by
  intro vs
  induction vs with
  | nil => intro z _; rfl
  | cons v rest ih =>
    intro z h
    unfold Walk
    rw [h v (List.mem_cons_self v rest) z]
    rcases g z v with ⟨z1, e⟩
    cases e with
    | some e => rfl
    | none => exact ih z1 (fun u hu => h u (List.mem_cons_of_mem v hu))

/-- Every entry the walk writes is an earlier entry or the entry of an included
visit, named by the relative path of that visit. -/
theorem Walk_mem (lib : Lib) (src : String) (excludes : List String) :
    ∀ (vs : List Visit) (z : ZipWriter) (e : ZipEntry),
      e ∈ (Walk (walkFn lib src excludes) z vs).1.dir →
      e ∈ z.dir ∨ ∃ v ∈ vs, included lib src excludes v = true ∧
        e.header = { (lib.FileInfoHeader v.info).1 with
          Name := relOf lib src v, Method := Deflate } := by
  intro vs
  induction vs with
  | nil => intro z e h; left; simpa [Walk] using h
  | cons v rest ih =>
    intro z e h
    unfold Walk at h
    have hstep : ∀ e1 ∈ (walkFn lib src excludes z v).1.dir,
        e1 ∈ z.dir ∨ (included lib src excludes v = true ∧
          e1.header = { (lib.FileInfoHeader v.info).1 with
            Name := relOf lib src v, Method := Deflate }) := by
      intro e1 he1
      rcases walkFn_dir lib src excludes z v with hd | ⟨_, hinc, _, _, data, hd⟩
      · left; rwa [hd] at he1
      · rw [hd, List.mem_append, List.mem_singleton] at he1
        rcases he1 with he1 | he1
        · left; exact he1
        · right; exact ⟨hinc, by rw [he1]⟩
    rcases hfn : walkFn lib src excludes z v with ⟨z1, err⟩
    rw [hfn] at h hstep
    have hin : e ∈ z1.dir ∨ ∃ u ∈ rest, included lib src excludes u = true ∧
        e.header = { (lib.FileInfoHeader u.info).1 with
          Name := relOf lib src u, Method := Deflate } := by
      cases err with
      | some err => left; exact h
      | none => exact ih z1 e h
    rcases hin with hin | ⟨u, hu, hrest⟩
    · rcases hstep e hin with h1 | h1
      · left; exact h1
      · right; exact ⟨v, List.mem_cons_self v rest, h1⟩
    · right; exact ⟨u, List.mem_cons_of_mem v hu, hrest⟩

theorem createZipArchive_written (lib : Lib) (w : World) (src : String)
    (excludes : List String) (htmp : w.createTempErr = none) :
    (createZipArchive lib w src excludes).written =
      (Walk (walkFn lib src excludes) ⟨[]⟩ w.visits).1.dir := by
  unfold createZipArchive
  rw [htmp]
  cases w.closeErr <;> rfl

theorem createZipArchive_err (lib : Lib) (w : World) (src : String)
    (excludes : List String) (htmp : w.createTempErr = none) :
    (createZipArchive lib w src excludes).err =
      match w.closeErr with
      | some err => some (Errorf "failed to create zip archive: " err)
      | none => (Walk (walkFn lib src excludes) ⟨[]⟩ w.visits).2 := by
  unfold createZipArchive
  rw [htmp]
  cases w.closeErr <;> rfl

theorem walkFn_err_of_failsWith (lib : Lib) (src : String) (excludes : List String)
    (z : ZipWriter) (v : Visit) (e : GoError) (h : FailsWith lib src excludes v e) :
    (walkFn lib src excludes z v).2 = some e := by
  unfold walkFn
  rcases h with h | ⟨h0, hd, hm, h⟩
  · rw [h]
  · rw [h0]
    simp only [relOf] at hm
    simp only [hd, hm, Bool.false_eq_true, if_false]
    unfold addToZip
    rcases hh : lib.FileInfoHeader v.info with ⟨hdr, e1⟩
    rw [hh] at h
    simp only at h
    rcases h with h | ⟨h1, h2⟩ | ⟨h1, h2, h3⟩ | ⟨h1, h2, h3, h4⟩
    · subst h; rfl
    · subst h1; simp [h2]
    · subst h1; simp [h2, h3]
    · subst h1; simp [h2, h3, h4]

theorem succeeds_of_not_failsWith (lib : Lib) (src : String) (excludes : List String)
    (v : Visit) (h : ∀ e, ¬ FailsWith lib src excludes v e) :
    v.err = none ∧ (included lib src excludes v = true → addSucceeds lib v) := by
  have herr : v.err = none := by
    cases he : v.err with
    | none => rfl
    | some e => exact absurd (Or.inl he) (h e)
  refine ⟨herr, fun hinc => ?_⟩
  unfold included at hinc
  simp only [Bool.and_eq_true, Bool.not_eq_true'] at hinc
  have h1 : (lib.FileInfoHeader v.info).2 = none := by
    cases hh : (lib.FileInfoHeader v.info).2 with
    | none => rfl
    | some e => exact absurd (Or.inr ⟨herr, hinc.1, hinc.2, Or.inl hh⟩) (h e)
  have h2 : v.calls.createErr = none := by
    cases hh : v.calls.createErr with
    | none => rfl
    | some e => exact absurd (Or.inr ⟨herr, hinc.1, hinc.2, Or.inr (Or.inl ⟨h1, hh⟩)⟩) (h e)
  have h3 : v.calls.openErr = none := by
    cases hh : v.calls.openErr with
    | none => rfl
    | some e =>
      exact absurd (Or.inr ⟨herr, hinc.1, hinc.2, Or.inr (Or.inr (Or.inl ⟨h1, h2, hh⟩))⟩) (h e)
  have h4 : v.calls.copyErr = none := by
    cases hh : v.calls.copyErr with
    | none => rfl
    | some e =>
      exact absurd
        (Or.inr ⟨herr, hinc.1, hinc.2, Or.inr (Or.inr (Or.inr ⟨h1, h2, h3, hh⟩))⟩) (h e)
  exact ⟨h1, h2, h3, h4⟩

/-- The walk up to and including the first failing visit: the entries of the
included visits before it, then what the callback wrote for the failing visit; the
visits after it play no part. -/
theorem Walk_first_failure (lib : Lib) (src : String) (excludes : List String)
    (pre post : List Visit) (bad : Visit) (e : GoError) (z : ZipWriter)
    (hpre : ∀ v ∈ pre, ∀ e0, ¬ FailsWith lib src excludes v e0)
    (hbad : FailsWith lib src excludes bad e) :
    Walk (walkFn lib src excludes) z (pre ++ bad :: post) =
      (⟨z.dir ++ (pre.filter (included lib src excludes)).map (fun v =>
          ⟨{ (lib.FileInfoHeader v.info).1 with Name := relOf lib src v, Method := Deflate },
            v.calls.data⟩) ++ (walkFn lib src excludes ⟨[]⟩ bad).1.dir⟩, some e) := by
  rw [Walk_append]
  rw [walk_of_succeeds lib src excludes pre z
    (fun v hv => succeeds_of_not_failsWith lib src excludes v (hpre v hv))]
  simp only
  unfold Walk
  rw [walkFn_append]
  have h2 := walkFn_err_of_failsWith lib src excludes ⟨[]⟩ bad e hbad
  rw [h2]

/-! ## The claims about the archive -/

/-- Witness of C1 on the tree `a.txt`, `sub/b.txt`, `sub/c.log` with the pattern
`*.log`: the entry names are `a.txt` and `sub/b.txt`. -/
theorem createZipArchive_entry_names_witness :
    entryNames (createZipArchive posixLib treeWorld "src" ["*.log"]).written =
      ["a.txt", "sub/b.txt"] :=
  (createZipArchive_entry_names posixLib treeWorld "src" ["*.log"] (by decide)
    (by
      intro v hv
      simp only [treeWorld, List.mem_cons, List.mem_singleton, List.not_mem_nil,
        or_false] at hv
      rcases hv with h | h | h | h | h <;> subst h <;>
        exact ⟨rfl, fun _ _ => ⟨rfl, rfl, rfl, rfl⟩⟩)
    (by decide)).1.trans (by decide)

/-- Witness of C2: with the patterns `*.log` and `a.txt`, in either order, the path
`sub/c.log` is excluded. -/
theorem matchExcludes_any_witness :
    matchExcludes posixLib "sub/c.log" ["a.txt", "*.log"] =
      matchExcludes posixLib "sub/c.log" ["*.log", "a.txt"] :=
  (matchExcludes_any posixLib "sub/c.log" ["*.log", "a.txt"]).2.2 ["a.txt", "*.log"]
    (List.Perm.swap "a.txt" "*.log" [])

/-- C3: when the source path does not exist, the walk reports the error of
`Lstat`, closing the zip writer succeeds, and `createZipArchive` returns that error
together with a non-nil file handle and a non-nil size info. -/
theorem createZipArchive_walk_error_keeps_handle :
    (createZipArchive posixLib missingWorld "missing" []).err = some lstatErr ∧
    (createZipArchive posixLib missingWorld "missing" []).file = some ⟨[], 0⟩ ∧
    (createZipArchive posixLib missingWorld "missing" []).info = some tmpInfo := by
  decide

/-- The handle is nil exactly when creating the temporary file or closing the zip
writer fails; an error of the walk alone leaves it non-nil. -/
theorem createZipArchive_file_eq_none_iff (lib : Lib) (w : World) (src : String)
    (excludes : List String) :
    (createZipArchive lib w src excludes).file = none ↔
      w.createTempErr ≠ none ∨ w.closeErr ≠ none := by
  unfold createZipArchive
  cases w.createTempErr <;> cases w.closeErr <;> simp

/-- Counterexample to C4 as stated: copying `src/a.txt` fails with a read error and
closing the zip writer fails too; the error returned is the wrapped error of
`Close`, not the read error. -/
theorem createZipArchive_close_error_replaces_walk_error :
    brokenWorld.visits = [dirVisit "src" "src"] ++ unreadableVisit ::
      [fileVisit "src/b.txt" "b.txt" [98]] ∧
    FailsWith posixLib "src" [] unreadableVisit readErr ∧
    (createZipArchive posixLib brokenWorld "src" []).err =
      some (Errorf "failed to create zip archive: " writeErr) ∧
    (createZipArchive posixLib brokenWorld "src" []).err ≠ some readErr :=
  ⟨rfl, Or.inr ⟨rfl, rfl, rfl, Or.inr (Or.inr (Or.inr ⟨rfl, rfl, rfl, rfl⟩))⟩,
    by decide, by decide⟩

/-- C4, amended: when the temporary file is created and the first failing visit of
the walk fails with error `e`, `createZipArchive` returns a non-nil error, which is
`e` whenever closing the zip writer succeeds; the entry names written are those of
the included visits before the failing one, followed by at most the name of the
failing file; and the entries written are the same as if the walk had ended with the
failing visit. -/
theorem createZipArchive_stops_at_first_failure (lib : Lib) (w : World) (src : String)
    (excludes : List String) (pre post : List Visit) (bad : Visit) (e : GoError)
    (htmp : w.createTempErr = none)
    (hvis : w.visits = pre ++ bad :: post)
    (hpre : ∀ v ∈ pre, ∀ e0, ¬ FailsWith lib src excludes v e0)
    (hbad : FailsWith lib src excludes bad e) :
    (createZipArchive lib w src excludes).err ≠ none ∧
    (w.closeErr = none → (createZipArchive lib w src excludes).err = some e) ∧
    (∃ tail, (tail = [] ∨ tail = [relOf lib src bad]) ∧
      entryNames (createZipArchive lib w src excludes).written =
        (pre.filter (fun v => !v.info.IsDir &&
          !matchExcludes lib (relOf lib src v) excludes)).map (relOf lib src) ++ tail) ∧
    (createZipArchive lib w src excludes).written =
      (createZipArchive lib ⟨none, pre ++ [bad], w.closeErr, w.tmpStat⟩ src excludes).written := by
  have hw := Walk_first_failure lib src excludes pre post bad e ⟨[]⟩ hpre hbad
  have hw2 := Walk_first_failure lib src excludes pre [] bad e ⟨[]⟩ hpre hbad
  have herr := createZipArchive_err lib w src excludes htmp
  have hwr := createZipArchive_written lib w src excludes htmp
  rw [hvis, hw] at herr hwr
  have hfun : (fun v : Visit => !v.info.IsDir &&
      !matchExcludes lib (relOf lib src v) excludes) = included lib src excludes := by
    funext v
    rfl
  refine ⟨?_, ?_, ?_, ?_⟩
  · rw [herr]
    cases w.closeErr <;> simp
  · intro hc
    rw [herr, hc]
  · rw [hwr, hfun]
    rcases walkFn_dir lib src excludes ⟨[]⟩ bad with hd | ⟨_, _, _, _, data, hd⟩
    · exact ⟨[], Or.inl rfl, by simp [hd, entryNames, List.map_map, Function.comp_def]⟩
    · exact ⟨[relOf lib src bad], Or.inr rfl,
        by simp [hd, entryNames, List.map_map, Function.comp_def]⟩
  · rw [hwr, createZipArchive_written lib _ src excludes rfl]
    simp only [hw2]

/-- Witness of C4 amended: in the tree where copying `src/a.txt` fails and closing
succeeds, the read error is returned and `src/b.txt`, visited later, has no entry. -/
theorem createZipArchive_stops_at_first_failure_witness :
    (createZipArchive posixLib ⟨none, brokenWorld.visits, none, tmpInfo⟩ "src" []).err =
      some readErr :=
  (createZipArchive_stops_at_first_failure posixLib ⟨none, brokenWorld.visits, none, tmpInfo⟩
    "src" [] [dirVisit "src" "src"] [fileVisit "src/b.txt" "b.txt" [98]] unreadableVisit
    readErr rfl rfl
    (by
      intro v hv e0 hf
      simp only [List.mem_singleton] at hv
      subst hv
      rcases hf with h | ⟨_, h, _⟩
      · exact Option.noConfusion h
      · exact Bool.noConfusion h)
    (Or.inr ⟨rfl, rfl, rfl, Or.inr (Or.inr (Or.inr ⟨rfl, rfl, rfl, rfl⟩))⟩)).2.1 rfl

/-- Counterexample to C5 as stated: on Windows, where `filepath.Rel` returns
`sub\b.txt` for the file `C:\app\sub\b.txt` below `C:\app`, the entry is named
`sub\b.txt`: the name holds a backslash and no forward slash. -/
theorem createZipArchive_backslash_name :
    relOf windowsLib "C:\\app" (fileVisit "C:\\app\\sub\\b.txt" "b.txt" [98]) = "sub\\b.txt" ∧
    entryNames (createZipArchive windowsLib windowsWorld "C:\\app" []).written =
      ["sub\\b.txt"] ∧
    Char.ofNat 92 ∈ "sub\\b.txt".data ∧ Char.ofNat 47 ∉ "sub\\b.txt".data := by
  decide

/-- C5, amended: the name of every archive entry is the relative path that
`createZipArchive` computed with `filepath.Rel` for an included file, unchanged; so
a character (such as the backslash) occurs in an entry name only if it occurs in
one of those relative paths. -/
theorem createZipArchive_entry_name_is_relpath (lib : Lib) (w : World) (src : String)
    (excludes : List String) :
    (∀ entry ∈ (createZipArchive lib w src excludes).written,
      ∃ v ∈ w.visits, v.info.IsDir = false ∧
        matchExcludes lib (relOf lib src v) excludes = false ∧
        entry.header.Name = (Rel lib src v.path).1) ∧
    (∀ c : Char, (∀ v ∈ w.visits, v.info.IsDir = false → c ∉ (Rel lib src v.path).1.data) →
      ∀ entry ∈ (createZipArchive lib w src excludes).written, c ∉ entry.header.Name.data) := by
  have key : ∀ entry ∈ (createZipArchive lib w src excludes).written,
      ∃ v ∈ w.visits, v.info.IsDir = false ∧
        matchExcludes lib (relOf lib src v) excludes = false ∧
        entry.header.Name = (Rel lib src v.path).1 := by
    intro entry hmem
    cases htmp : w.createTempErr with
    | some err =>
      unfold createZipArchive at hmem
      rw [htmp] at hmem
      exact absurd hmem (List.not_mem_nil entry)
    | none =>
      rw [createZipArchive_written lib w src excludes htmp] at hmem
      rcases Walk_mem lib src excludes w.visits ⟨[]⟩ entry hmem with h | ⟨v, hv, hinc, hhd⟩
      · exact absurd h (List.not_mem_nil entry)
      · unfold included at hinc
        simp only [Bool.and_eq_true, Bool.not_eq_true'] at hinc
        exact ⟨v, hv, hinc.1, hinc.2, by rw [hhd]; rfl⟩
  refine ⟨key, ?_⟩
  intro c hc entry hmem
  obtain ⟨v, hv, hd, _, hname⟩ := key entry hmem
  rw [hname]
  exact hc v hv hd

/-- C6: when no non-directory relative path of the tree matches a pattern of `P`,
`createZipArchive` with `P` writes the same entries and returns the same values as
with no patterns. -/
theorem createZipArchive_unmatched_patterns (lib : Lib) (w : World) (src : String)
    (P : List String)
    (h : ∀ v ∈ w.visits, v.err = none → v.info.IsDir = false →
      matchExcludes lib (Rel lib src v.path).1 P = false) :
    (createZipArchive lib w src P).written = (createZipArchive lib w src []).written ∧
    createZipArchive lib w src P = createZipArchive lib w src [] := by
  have hfn : ∀ v ∈ w.visits, ∀ z1, walkFn lib src P z1 v = walkFn lib src [] z1 v := by
    intro v hv z1
    unfold walkFn
    cases he : v.err with
    | some e => rfl
    | none =>
      by_cases hd : v.info.IsDir = true
      · simp [hd]
      · simp only [Bool.not_eq_true] at hd
        simp [hd, h v hv he hd, matchExcludes]
  have hwalk := Walk_congr (walkFn lib src P) (walkFn lib src []) w.visits ⟨[]⟩ hfn
  have heq : createZipArchive lib w src P = createZipArchive lib w src [] := by
    unfold createZipArchive
    rw [hwalk]
  exact ⟨by rw [heq], heq⟩

/-- Witness of C6: the pattern `*.md` matches no file of the tree `a.txt`,
`sub/b.txt`, `sub/c.log`. -/
theorem createZipArchive_unmatched_patterns_witness :
    (createZipArchive posixLib treeWorld "src" ["*.md"]).written =
      (createZipArchive posixLib treeWorld "src" []).written :=
  (createZipArchive_unmatched_patterns posixLib treeWorld "src" ["*.md"] (by decide)).1

/-- C7: when `zip.FileInfoHeader` and `CreateHeader` succeed, `addToZip` adds one
entry to the writer; its header has the method `Deflate` and the name `relpath`, and
its mode, modification time and uncompressed size are those of the header that
`zip.FileInfoHeader` derived from the `FileInfo`. -/
theorem addToZip_header (lib : Lib) (z : ZipWriter) (path relpath : String)
    (info : FileInfo) (calls : FileCalls) (derived : FileHeader)
    (hheader : lib.FileInfoHeader info = (derived, none))
    (hcreate : calls.createErr = none) :
    ∃ entry, (addToZip lib z path relpath info calls).1.dir = z.dir ++ [entry] ∧
      entry.header.Method = Deflate ∧
      entry.header.Name = relpath ∧
      entry.header.Mode = derived.Mode ∧
      entry.header.Modified = derived.Modified ∧
      entry.header.UncompressedSize64 = derived.UncompressedSize64 := by
  unfold addToZip
  rw [hheader]
  simp only [hcreate]
  cases calls.openErr with
  | some e => exact ⟨_, rfl, rfl, rfl, rfl, rfl, rfl⟩
  | none => exact ⟨_, rfl, rfl, rfl, rfl, rfl, rfl⟩

/-- Witness of C7 on an empty file of mode 0644. -/
theorem addToZip_header_witness :
    ∃ entry, (addToZip posixLib ⟨[]⟩ "src/sub/c.log" "sub/c.log" (regularInfo "c.log" 0)
        (okCalls [])).1.dir = [] ++ [entry] ∧
      entry.header.Method = Deflate ∧
      entry.header.Name = "sub/c.log" ∧
      entry.header.Mode = 420 ∧
      entry.header.Modified = 1700000000 ∧
      entry.header.UncompressedSize64 = 0 :=
  addToZip_header posixLib ⟨[]⟩ "src/sub/c.log" "sub/c.log" (regularInfo "c.log" 0) (okCalls [])
    ⟨"c.log", Store, 420, 1700000000, 0⟩ rfl rfl

/-- C8: when `zip.OpenReader` fails on the path, `loadZipArchive` returns a nil file
handle, a nil file info and a non-nil error; the error wraps the error of
`OpenReader` and its text is `failed to open zip file`, the path, a colon and the
text of that error. -/
theorem loadZipArchive_open_error (w : LoadWorld) (src : String) (e : GoError)
    (hopen : w.openReader src = .error e) :
    (loadZipArchive w src).1 = none ∧
    (loadZipArchive w src).2.1 = none ∧
    (loadZipArchive w src).2.2 ≠ none ∧
    (∃ err, (loadZipArchive w src).2.2 = some err ∧ err.Unwrap = some e ∧
      err.Error = "failed to open zip file " ++ src ++ ": " ++ e.Error) := by
  unfold loadZipArchive
  rw [hopen]
  exact ⟨rfl, rfl, by simp, _, rfl, rfl, rfl⟩

/-- C9: when the walk visits only the source path itself, a regular file, the
relative path computed is `.`; when `wildcard.Match(pattern, ".")` is true for some
exclude pattern no entry is written, and when it is true for none then, once the
header and the entry are created, the archive has exactly one entry, named `.`. -/
theorem createZipArchive_single_file (lib : Lib) (w : World) (src : String)
    (excludes : List String) (v : Visit)
    (htmp : w.createTempErr = none)
    (hvis : w.visits = [v]) (hpath : v.path = src) (herr : v.err = none)
    (hfile : v.info.IsDir = false) :
    (Rel lib src v.path).1 = "." ∧
    ((∃ pattern ∈ excludes, lib.Match pattern "." = true) →
      (createZipArchive lib w src excludes).written = []) ∧
    ((∀ pattern ∈ excludes, lib.Match pattern "." = false) →
      (lib.FileInfoHeader v.info).2 = none → v.calls.createErr = none →
      entryNames (createZipArchive lib w src excludes).written = ["."]) := by
  have hrel : (Rel lib src v.path).1 = "." := by
    unfold Rel
    rw [hpath]
    simp [lib.sameWord_refl]
  have hwr := createZipArchive_written lib w src excludes htmp
  rw [hvis] at hwr
  refine ⟨hrel, ?_, ?_⟩
  · intro hex
    have hm : matchExcludes lib "." excludes = true :=
      (matchExcludes_eq_true_iff lib "." excludes).mpr hex
    rw [hwr]
    simp [Walk, walkFn, herr, hfile, hrel, hm]
  · intro hall hh hc
    have hm : matchExcludes lib "." excludes = false := by
      cases hcase : matchExcludes lib "." excludes with
      | false => rfl
      | true =>
        obtain ⟨p, hp, hpm⟩ := (matchExcludes_eq_true_iff lib "." excludes).mp hcase
        rw [hall p hp] at hpm
        exact Bool.noConfusion hpm
    rw [hwr]
    rcases hfh : lib.FileInfoHeader v.info with ⟨hdr, e1⟩
    rw [hfh] at hh
    simp only at hh
    subst hh
    cases ho : v.calls.openErr with
    | some e =>
      simp [Walk, walkFn, herr, hfile, hrel, hm, addToZip, hfh, hc, ho, entryNames]
    | none =>
      cases hcp : v.calls.copyErr <;>
        simp [Walk, walkFn, herr, hfile, hrel, hm, addToZip, hfh, hc, ho, hcp, entryNames]

/-- Witness of C9: the source path is the regular file `app.bin`. With the exclude
pattern `*`, which matches `.`, nothing is written; with the pattern `*.log`, which
does not match `.`, the one entry of the archive is named `.`. -/
theorem createZipArchive_single_file_witness :
    (createZipArchive posixLib singleFileWorld "app.bin" ["*"]).written = [] ∧
    entryNames (createZipArchive posixLib singleFileWorld "app.bin" ["*.log"]).written =
      ["."] :=
  ⟨(createZipArchive_single_file posixLib singleFileWorld "app.bin" ["*"]
      (fileVisit "app.bin" "app.bin" [1, 2, 3]) rfl rfl rfl rfl rfl).2.1
      ⟨"*", List.mem_singleton.mpr rfl, by decide⟩,
    (createZipArchive_single_file posixLib singleFileWorld "app.bin" ["*.log"]
      (fileVisit "app.bin" "app.bin" [1, 2, 3]) rfl rfl rfl rfl rfl).2.2
      (by
        intro pattern hp
        rw [List.mem_singleton] at hp
        subst hp
        decide)
      rfl rfl⟩

/-- Witness of C8: `function.zip` is not a zip archive. -/
theorem loadZipArchive_open_error_witness :
    (loadZipArchive corruptWorld "function.zip").1 = none ∧
    (loadZipArchive corruptWorld "function.zip").2.1 = none ∧
    (loadZipArchive corruptWorld "function.zip").2.2 ≠ none :=
  ⟨(loadZipArchive_open_error corruptWorld "function.zip" notZipErr rfl).1,
    (loadZipArchive_open_error corruptWorld "function.zip" notZipErr rfl).2.1,
    (loadZipArchive_open_error corruptWorld "function.zip" notZipErr rfl).2.2.1⟩

/-! ## The claim about the status text -/

/-- C10: with a non-nil `Configuration` and `LoggingConfig`, `String()` is the
following lines, each followed by one newline: seven leading lines; the header
`LoggingConfig: `; the lines `  LogFormat: ` and `  LogGroup: `; the line
`  ApplicationLogLevel: ` exactly when that level is non-empty; the line
`  SystemLogLevel: ` exactly when that level is non-empty; the header `SnapStart: `;
for a nil `SnapStart` an empty line, otherwise its two lines; the eight following
lines; and last the line `Tags: `. -/
theorem FunctionStatusOutput_String_lines (st : FunctionStatusOutput)
    (c : FunctionConfiguration) (lc : LoggingConfig)
    (hc : st.Configuration = some c) (hl : c.LoggingConfig = some lc) :
    st.String = some (unlines (
      ["FunctionName: " ++ ToString c.FunctionName,
       "Description: " ++ ToString c.Description,
       "Version: " ++ ToString c.Version,
       "FunctionArn: " ++ ToString c.FunctionArn,
       "Role: " ++ ToString c.Role,
       "State: " ++ c.State,
       "LastUpdateStatus: " ++ c.LastUpdateStatus,
       "LoggingConfig: ",
       "  LogFormat: " ++ lc.LogFormat,
       "  LogGroup: " ++ ToString lc.LogGroup] ++
      (if lc.ApplicationLogLevel = "" then []
        else ["  ApplicationLogLevel: " ++ lc.ApplicationLogLevel]) ++
      (if lc.SystemLogLevel = "" then []
        else ["  SystemLogLevel: " ++ lc.SystemLogLevel]) ++
      ["SnapStart: "] ++
      (match c.SnapStart with
        | none => [""]
        | some ss => ["  ApplyOn: " ++ ss.ApplyOn,
            "  OptimizationStatus: " ++ ss.OptimizationStatus]) ++
      ["Architectures: " ++ Join c.Architectures ",",
       "Runtime: " ++ c.Runtime,
       "Handler: " ++ ToString c.Handler,
       "Timeout: " ++ toString (ToInt32 c.Timeout),
       "MemorySize: " ++ toString (ToInt32 c.MemorySize),
       "PackageType: " ++ c.PackageType,
       "CodeSize: " ++ toString c.CodeSize,
       "CodeSha256: " ++ ToString c.CodeSha256,
       "Tags: " ++ Join (st.Tags.map (fun kv => kv.1 ++ "=" ++ kv.2)) ","])) := by
  unfold FunctionStatusOutput.String
  rw [hc]
  simp only [hl]
  have h1 : "LoggingConfig: \n" = "LoggingConfig: " ++ "\n" := by decide
  have h2 : "SnapStart: \n" = "SnapStart: " ++ "\n" := by decide
  rw [h1, h2]
  by_cases ha : lc.ApplicationLogLevel = "" <;> by_cases hs : lc.SystemLogLevel = "" <;>
    cases c.SnapStart <;>
    simp only [ha, hs, ne_eq, not_true_eq_false, not_false_eq_true, if_true, if_false,
      List.cons_append, List.nil_append, Join, unlines, String.append_assoc,
      String.append_empty, String.empty_append]

set_option maxRecDepth 100000 in
/-- Witness of C10: the text of a status with both log levels and no SnapStart. -/
theorem FunctionStatusOutput_String_lines_witness :
    sampleStatus.String = some (
      "FunctionName: hello\n" ++
      "Description: \n" ++
      "Version: $LATEST\n" ++
      "FunctionArn: arn:aws:lambda:us-east-1:123456789012:function:hello\n" ++
      "Role: arn:aws:iam::123456789012:role/hello\n" ++
      "State: Active\n" ++
      "LastUpdateStatus: Successful\n" ++
      "LoggingConfig: \n" ++
      "  LogFormat: JSON\n" ++
      "  LogGroup: /aws/lambda/hello\n" ++
      "  ApplicationLogLevel: INFO\n" ++
      "  SystemLogLevel: WARN\n" ++
      "SnapStart: \n" ++
      "\n" ++
      "Architectures: arm64\n" ++
      "Runtime: provided.al2023\n" ++
      "Handler: bootstrap\n" ++
      "Timeout: 3\n" ++
      "MemorySize: 128\n" ++
      "PackageType: Zip\n" ++
      "CodeSize: 1024\n" ++
      "CodeSha256: abc=\n" ++
      "Tags: env=dev\n") :=
  (FunctionStatusOutput_String_lines sampleStatus _ _ rfl rfl).trans (by decide)

end Lambroll
